import Mathlib

/-!
Verification of the Secure Query Execution & Admission Control subsystem of
the atomic-crm-mcp server.

Each definition below is a shallow embedding of a function of the TypeScript
source; the file where the original lives is named in the doc comment.
JavaScript strings are modelled as Lean `String`s (lists of characters); the
inputs exercised by the claims are ASCII, where JS UTF-16 semantics and the
character-list model agree.  JavaScript objects used as ordered key/value
records are modelled as association lists in key-insertion order, matching
the `Object.keys` enumeration order the source relies on.
-/

namespace AtomicCrm

/-! ## Identifier validation (src/src/db/query-utils.ts) -/

/-- Character class test for `[a-zA-Z]`. -/
def isAsciiLetter (c : Char) : Bool :=
  ('a' ≤ c && c ≤ 'z') || ('A' ≤ c && c ≤ 'Z')

/-- Character class test for `[0-9]`. -/
def isAsciiDigit (c : Char) : Bool :=
  '0' ≤ c && c ≤ '9'

/-- Character class test for `[a-zA-Z_]` (identifier start). -/
def isIdentStart (c : Char) : Bool :=
  isAsciiLetter c || c = '_'

/-- Character class test for `[a-zA-Z0-9_]` (identifier continuation, also
the JS regex word class `\w`). -/
def isIdentChar (c : Char) : Bool :=
  isAsciiLetter c || isAsciiDigit c || c = '_'

/-- Test that a character list matches the regex `^[a-zA-Z_][a-zA-Z0-9_]*$`. -/
def matchesIdent : List Char → Bool
  | [] => false
  | c :: cs => isIdentStart c && cs.all isIdentChar

/-- Embedding of `isValidColumn` (query-utils.ts lines 159-171): the column
must be nonempty, at most 63 characters, and match
`^[a-zA-Z_][a-zA-Z0-9_]*$`. -/
def isValidColumn (column : String) : Bool :=
  if column.length = 0 || 63 < column.length then false
  else matchesIdent column.data

/-- Embedding of the `ALLOWED_TABLES` allow-list (query-utils.ts lines 9-24). -/
def ALLOWED_TABLES : List String :=
  ["contacts", "companies", "deals", "tasks", "sales", "activities",
   "tags", "contact_tags", "deal_contacts", "audit_log",
   "contacts_summary", "companies_summary", "deals_summary"]

/-- ASCII lower-casing of a string, modelling `String.prototype.toLowerCase`
on ASCII input. -/
def lowerStr (s : String) : String :=
  String.mk (s.data.map Char.toLower)

/-- Embedding of `isValidTable` (query-utils.ts lines 149-151):
membership of the lower-cased name in the allow-list. -/
def isValidTable (table : String) : Bool :=
  ALLOWED_TABLES.contains (lowerStr table)

/-! ## Parameterized fragment builders (src/src/db/query-utils.ts) -/

/-- Embedding of `buildWhereClause` (query-utils.ts lines 117-142).
`conditions` is the object as an ordered association list; a `none` value is
the JS `null`.  The fold carries the `parts` and `params` accumulators of the
source's `forEach`; the placeholder number is `startIndex + params.length`,
exactly as in the source. -/
def buildWhereClause (conditions : List (String × Option String))
    (startIndex : Nat) (operator : String) : String × List String :=
  let step := fun (acc : List String × List String) (kv : String × Option String) =>
    if isValidColumn kv.1 then
      match kv.2 with
      | none => (acc.1 ++ [kv.1 ++ " IS NULL"], acc.2)
      | some v =>
          (acc.1 ++ [kv.1 ++ " = $" ++ toString (startIndex + acc.2.length)],
           acc.2 ++ [v])
    else acc
  let r := conditions.foldl step ([], [])
  (String.intercalate (" " ++ operator ++ " ") r.1, r.2)

/-- Specification-level recursive reading of the WHERE parts: a null-valued
valid key emits `col IS NULL` and consumes no placeholder, a non-null valid
key emits `col = $n` where `n` counts only the non-null valid keys seen so
far, starting at the given index.  Used to state the refinement for the
accumulator-based source embedding. -/
def wherePartsSpec : List (String × Option String) → Nat → List String × List String
  | [], _ => ([], [])
  | (k, v) :: rest, n =>
    if isValidColumn k then
      match v with
      | none =>
          let r := wherePartsSpec rest n
          ((k ++ " IS NULL") :: r.1, r.2)
      | some x =>
          let r := wherePartsSpec rest (n + 1)
          ((k ++ " = $" ++ toString n) :: r.1, x :: r.2)
    else wherePartsSpec rest n

/-- Embedding of `buildInsertStatement` (query-utils.ts lines 89-108).
The data record's keys are filtered through `isValidColumn`; the `table`
argument is interpolated into the SQL text as-is.  Values are modelled as
strings (the source treats them as opaque `unknown`s). -/
def buildInsertStatement (table : String) (data : List (String × String)) :
    String × List String :=
  let kvs := data.filter (fun kv => isValidColumn kv.1)
  let columns := String.intercalate ", " (kvs.map (fun kv => kv.1))
  let placeholders :=
    String.intercalate ", "
      ((List.range kvs.length).map (fun i => "$" ++ toString (i + 1)))
  ("INSERT INTO " ++ table ++ " (" ++ columns ++ ") VALUES (" ++ placeholders ++ ")",
   kvs.map (fun kv => kv.2))

/-! ## Connection pool health (src/unnamed/part_003, pool monitor module) -/

/-- Pool statistics record (part_003 lines 7-15); the `timestamp` string is
not inspected by `checkPoolHealth` and is omitted. -/
structure PoolStats where
  totalCount : Nat
  idleCount : Nat
  waitingCount : Nat
  activeCount : Nat
  maxConnections : Nat
  utilizationPercent : Nat
  deriving DecidableEq, Repr

/-- Health classification levels ("healthy" / "degraded" / "critical"). -/
inductive HealthLevel where
  | healthy
  | degraded
  | critical
  deriving DecidableEq, Repr

/-- Result of `checkPoolHealth` (part_003 lines 20-26), minus the echoed
`stats` field. -/
structure PoolHealthStatus where
  healthy : Bool
  status : HealthLevel
  message : String
  recommendations : List String
  deriving DecidableEq, Repr

/-- Monitoring thresholds (part_003 lines 31-40). -/
def THRESHOLDS_utilization_degraded : Nat := 70
/-- Critical utilization threshold (part_003 line 34). -/
def THRESHOLDS_utilization_critical : Nat := 90
/-- Degraded waiting-count threshold (part_003 line 37). -/
def THRESHOLDS_waiting_degraded : Nat := 5
/-- Critical waiting-count threshold (part_003 line 38). -/
def THRESHOLDS_waiting_critical : Nat := 20

/-- Stage 1 of `checkPoolHealth` (part_003 lines 72-83): the utilization
checks, producing the status/message/recommendations triple before the
waiting-count checks run. -/
def checkUtilization (stats : PoolStats) : HealthLevel × String × List String :=
  if THRESHOLDS_utilization_critical ≤ stats.utilizationPercent then
    (HealthLevel.critical,
     "Critical: Pool utilization at " ++ toString stats.utilizationPercent ++ "%",
     ["Consider increasing max pool connections",
      "Check for connection leaks",
      "Review long-running queries"])
  else if THRESHOLDS_utilization_degraded ≤ stats.utilizationPercent then
    (HealthLevel.degraded,
     "Warning: Pool utilization at " ++ toString stats.utilizationPercent ++ "%",
     ["Monitor for increasing load",
      "Consider connection pooling optimization"])
  else
    (HealthLevel.healthy, "Connection pool is operating normally", [])

/-- Stage 2 of `checkPoolHealth` (part_003 lines 86-96): the waiting-count
checks, mutating the triple produced by the utilization stage.  In the
degraded branch the source only downgrades the status when it is not already
critical, but replaces the message unconditionally. -/
def checkWaiting (stats : PoolStats) (prev : HealthLevel × String × List String) :
    HealthLevel × String × List String :=
  if THRESHOLDS_waiting_critical ≤ stats.waitingCount then
    (HealthLevel.critical,
     "Critical: " ++ toString stats.waitingCount ++ " connections waiting",
     prev.2.2 ++ ["Immediate action required: Scale up or optimize queries"])
  else if THRESHOLDS_waiting_degraded ≤ stats.waitingCount then
    ((if prev.1 = HealthLevel.critical then prev.1 else HealthLevel.degraded),
     "Warning: " ++ toString stats.waitingCount ++ " connections waiting",
     prev.2.2 ++ ["Monitor query performance"])
  else prev

/-- Stage 3 of `checkPoolHealth` (part_003 lines 99-103): the leak check,
which overrides status and message whenever `totalCount > maxConnections`. -/
def checkLeak (stats : PoolStats) (prev : HealthLevel × String × List String) :
    HealthLevel × String × List String :=
  if stats.maxConnections < stats.totalCount then
    (HealthLevel.critical,
     "Pool size exceeds configured maximum - possible leak",
     prev.2.2 ++ ["Investigate connection leak immediately"])
  else prev

/-- Embedding of `checkPoolHealth` (part_003 lines 66-112): the three check
stages run in source order over a mutable status/message/recommendations
triple; `healthy` is derived from the final status. -/
def checkPoolHealth (stats : PoolStats) : PoolHealthStatus :=
  let r := checkLeak stats (checkWaiting stats (checkUtilization stats))
  { healthy := r.1 = HealthLevel.healthy
    status := r.1
    message := r.2.1
    recommendations := r.2.2 }

/-! ## SQL safety validation (src/src/db/sql-validation.ts) -/

/-- The JS regex whitespace class `\s`, restricted to the ASCII whitespace
characters (the inputs of the claims are ASCII). -/
def isWsChar (c : Char) : Bool :=
  c = ' ' || c = '\t' || c = '\n' || c = '\r' ||
  c = Char.ofNat 11 || c = Char.ofNat 12

/-- The JS regex word class `\w` (`[A-Za-z0-9_]`), used for `\b` boundaries. -/
def isWordChar (c : Char) : Bool := isIdentChar c

/-- ASCII upper-casing of a character list, modelling
`String.prototype.toUpperCase` on ASCII input. -/
def upperChars (s : List Char) : List Char := s.map Char.toUpper

/-- Embedding of `String.prototype.trim`: drop whitespace from both ends. -/
def jsTrim (s : List Char) : List Char :=
  ((s.dropWhile isWsChar).reverse.dropWhile isWsChar).reverse

/-- Split a keyword on single spaces into its words, rendering the
`keyword.replace(/\s+/g, "\\s+")` preprocessing of the forbidden-keyword
regexes (sql-validation.ts line 32): each space of a multi-word keyword
becomes a `\s+` gap. -/
def splitWordsAux (cur : List Char) : List Char → List (List Char)
  | [] => [cur.reverse]
  | c :: cs =>
      if c = ' ' then cur.reverse :: splitWordsAux [] cs
      else splitWordsAux (c :: cur) cs

/-- Words of a keyword string. -/
def keywordWords (kw : String) : List (List Char) := splitWordsAux [] kw.data

/-- Match the words of a keyword at the head of `s`, each pair of words
separated by one or more whitespace characters (`\s+`), returning the
remainder after the match.  The keyword words consist of word characters
and the gap consumes whitespace only, so the greedy scan needs no
backtracking. -/
def matchSeq : List (List Char) → List Char → Option (List Char)
  | [], s => some s
  | [w], s => if w.isPrefixOf s then some (s.drop w.length) else none
  | w :: ws, s =>
      if w.isPrefixOf s then
        let rest := s.drop w.length
        let gap := rest.takeWhile isWsChar
        if gap.isEmpty then none
        else matchSeq ws (rest.drop gap.length)
      else none

/-- The regex `\bW1\s+…\s+Wk\b` matches at position `i` of `text`: a word
boundary before `i`, the word sequence, and a word boundary after. -/
def tokenAt (text : List Char) (i : Nat) (ws : List (List Char)) : Bool :=
  (decide (i = 0) ||
    match (text.take i).getLast? with
    | some c => !isWordChar c
    | none => true) &&
  (match matchSeq ws (text.drop i) with
   | some rest =>
       match rest with
       | [] => true
       | c :: _ => !isWordChar c
   | none => false)

/-- A keyword occurs somewhere in `text` as a standalone word-boundary token
(the semantics of `new RegExp("\\b" + kw + "\\b").test(text)` on the
already-uppercased text). -/
def occursAsToken (text : List Char) (kw : String) : Bool :=
  (List.range (text.length + 1)).any (fun i => tokenAt text i (keywordWords kw))

/-- The forbidden-keyword list (sql-validation.ts lines 9-15). -/
def FORBIDDEN_KEYWORDS : List String :=
  ["DROP", "DELETE", "TRUNCATE", "ALTER", "CREATE", "GRANT", "REVOKE",
   "INSERT", "UPDATE", "MERGE", "COPY", "VACUUM", "REINDEX",
   "EXECUTE", "PREPARE", "DEALLOCATE", "DISCARD",
   "LOAD", "SET", "RESET", "LOCK", "CLUSTER",
   "COMMENT ON", "SECURITY LABEL", "IMPORT FOREIGN SCHEMA"]

/-- Maximum allowed query length (sql-validation.ts line 20). -/
def MAX_QUERY_LENGTH : Nat := 10000

/-- Embedding of `containsForbiddenKeywords` (sql-validation.ts lines
27-39): upper-case the query, then return the first keyword of the fixed
list matching as a standalone token (`none` when no keyword matches). -/
def containsForbiddenKeywords (sql : String) : Option String :=
  FORBIDDEN_KEYWORDS.find? (fun kw => occursAsToken (upperChars sql.data) kw)

/-- Result record `{valid, error?}` of the SQL validator. -/
structure ValidationResult where
  valid : Bool
  error : Option String
  deriving DecidableEq, Repr

/-- Embedding of `validateSqlQuery` (sql-validation.ts lines 46-77), with
the source's check order: empty, length, forbidden keyword, SELECT/WITH
entry point, then the multi-statement semicolon check (one trailing
semicolon stripped). -/
def validateSqlQuery (sql : String) : ValidationResult :=
  if (jsTrim sql.data).length = 0 then
    ⟨false, some "Query cannot be empty"⟩
  else if MAX_QUERY_LENGTH < sql.data.length then
    ⟨false, some ("Query exceeds maximum length of " ++
      toString MAX_QUERY_LENGTH ++ " characters")⟩
  else
    match containsForbiddenKeywords sql with
    | some kw => ⟨false, some ("Query contains forbidden keyword: " ++ kw)⟩
    | none =>
      let trimmedUpper := upperChars (jsTrim sql.data)
      if !("SELECT".data.isPrefixOf trimmedUpper) &&
         !("WITH".data.isPrefixOf trimmedUpper) then
        ⟨false, some "Only SELECT and WITH queries are allowed"⟩
      else
        let body :=
          if (jsTrim sql.data).getLast? = some ';' then (jsTrim sql.data).dropLast
          else jsTrim sql.data
        if body.contains ';' then
          ⟨false, some "Multiple statements are not allowed"⟩
        else ⟨true, none⟩

/-- Try to match the table-extraction regex
`(?:FROM|JOIN)\s+([a-zA-Z_][a-zA-Z0-9_]*)` (case-insensitively) at the head
of `s`, returning the captured identifier and the remainder of the text
after the whole match. -/
def tryFromJoin (s : List Char) : Option (List Char × List Char) :=
  let u := upperChars (s.take 4)
  if u = "FROM".data || u = "JOIN".data then
    let after := s.drop 4
    let gap := after.takeWhile isWsChar
    if gap.isEmpty then none
    else
      let rest := after.drop gap.length
      match rest with
      | [] => none
      | c :: _ =>
          if isIdentStart c then
            let ident := rest.takeWhile isIdentChar
            some (ident, rest.drop ident.length)
          else none
  else none

/-- Non-overlapping scan of `matchAll` over the text: at each position try
the table-extraction regex; on a match, record the captured identifier and
continue after the match, otherwise advance one character.  `fuel` bounds
the recursion and is initialised to the text length, which the scan never
exceeds. -/
def extractTablesGo (fuel : Nat) (s : List Char) : List (List Char) :=
  match fuel with
  | 0 => []
  | fuel + 1 =>
    match s with
    | [] => []
    | _ :: cs =>
      match tryFromJoin s with
      | some (tbl, rest) => tbl :: extractTablesGo fuel rest
      | none => extractTablesGo fuel cs

/-- All table identifiers captured after `FROM`/`JOIN` in the text. -/
def extractTables (s : List Char) : List (List Char) :=
  extractTablesGo s.length s

/-- Embedding of `validateTablesInQuery` (sql-validation.ts lines 108-132):
extract the identifiers following `FROM`/`JOIN` and report, in original
case, those whose upper-casing is not in the upper-cased allow-list. -/
def validateTablesInQuery (sql : String) (allowedTables : List String) :
    Bool × List String :=
  let upperAllowed := allowedTables.map (fun t => upperChars t.data)
  let invalid := (extractTables sql.data).filter
    (fun t => !upperAllowed.contains (upperChars t))
  if invalid.isEmpty then (true, [])
  else (false, invalid.map String.mk)

/-! ## Admission queue (src/unnamed/part_004, `RequestQueue`)

The queue's observable state is the pending list, the active-request counter
and the request-id counter.  Timing fields of the configuration
(`timeoutMs`, `retryDelayMs`) and the rolling statistics are not modelled;
the claims concern the pending list and the counters only.  The events of
the model are the four state-changing actions of the source:

* `enqueue p` — `RequestQueue.enqueue` (part_004 lines 78-111): fails
  synchronously (no state change, caller sees a thrown error) when
  `queue.length >= maxQueueSize`, otherwise builds a request with priority
  clamped to `priorityLevels - 1` and inserts it with `insertByPriority`;
* `dispatch` — one iteration of the `processNext` loop (lines 142-160):
  only fires while `activeRequests < maxConcurrent` and the queue is
  nonempty, removes the head and increments `activeRequests`;
* `complete` — the guaranteed `finally` block of `executeRequest`
  (lines 238-242), which decrements `activeRequests`; it only ever runs for
  a previously dispatched request, so `activeRequests` is positive when it
  fires in a real trace;
* `retryInsert r` — the retry path of `executeRequest` (lines 216-221),
  which re-inserts a previously dispatched, transiently failed request with
  `insertByPriority` and performs no capacity check.
-/

/-- A queued request; `id` records arrival order (the source's
`requestIdCounter`). -/
structure QItem where
  id : Nat
  priority : Nat
  retries : Nat
  deriving DecidableEq, Repr

/-- Queue configuration fields consulted by the modelled actions
(part_004 lines 19-26). -/
structure QConfig where
  maxConcurrent : Nat
  maxQueueSize : Nat
  priorityLevels : Nat
  deriving DecidableEq, Repr

/-- Observable queue state. -/
structure QState where
  queue : List QItem
  active : Nat
  counter : Nat
  deriving DecidableEq, Repr

/-- Initial state of a fresh `RequestQueue`. -/
def initQ : QState := ⟨[], 0, 0⟩

/-- Embedding of `RequestQueue.insertByPriority` (part_004 lines 116-127):
the new request is placed at the first index whose priority is strictly
lower than the new request's (the source's `request.priority >
this.queue[i].priority` test), or at the end when there is none. -/
def insertByPriority (r : QItem) : List QItem → List QItem
  | [] => [r]
  | x :: xs => if x.priority < r.priority then r :: x :: xs else x :: insertByPriority r xs

/-- Embedding of the state change of `RequestQueue.enqueue`
(part_004 lines 78-111): `none` models the synchronous
`"Request queue is full"` throw, which queues nothing. -/
def enqueueQ (cfg : QConfig) (s : QState) (p : Nat) : Option QState :=
  if cfg.maxQueueSize ≤ s.queue.length then none
  else some
    { queue := insertByPriority
        ⟨s.counter + 1, min p (cfg.priorityLevels - 1), 0⟩ s.queue,
      active := s.active,
      counter := s.counter + 1 }

/-- Events of the queue model. -/
inductive QEvent where
  | enqueue (p : Nat)
  | dispatch
  | complete
  | retryInsert (r : QItem)
  deriving DecidableEq, Repr

/-- Whether an event is the retry re-insertion. -/
def QEvent.isRetry : QEvent → Bool
  | .retryInsert _ => true
  | _ => false

/-- One step of the queue model; see the section comment for the source
location of each action. -/
def stepQ (cfg : QConfig) (s : QState) : QEvent → QState
  | .enqueue p =>
      match enqueueQ cfg s p with
      | some s' => s'
      | none => s
  | .dispatch =>
      if s.active < cfg.maxConcurrent then
        match s.queue with
        | [] => s
        | _ :: xs => { queue := xs, active := s.active + 1, counter := s.counter }
      else s
  | .complete => { s with active := s.active - 1 }
  | .retryInsert r => { s with queue := insertByPriority r s.queue }

/-- State reached from the initial state after a list of events. -/
def runQ (cfg : QConfig) (es : List QEvent) : QState :=
  es.foldl (stepQ cfg) initQ

/-- Recursion of the `processNext` dispatch loop over the pending list: the
`while (activeRequests < maxConcurrent && queue.length > 0)` loop of
part_004 lines 144-156 stops when either guard fails, dequeues the head and
increments the active counter on each iteration. -/
def processNextGo (cfg : QConfig) (active counter : Nat) : List QItem → QState
  | [] => ⟨[], active, counter⟩
  | x :: xs =>
      if active < cfg.maxConcurrent then processNextGo cfg (active + 1) counter xs
      else ⟨x :: xs, active, counter⟩

/-- The `processNext` dispatch loop (part_004 lines 142-160): keep
dispatching head requests while `activeRequests < maxConcurrent` and the
queue is nonempty. -/
def processNext (cfg : QConfig) (s : QState) : QState :=
  processNextGo cfg s.active s.counter s.queue

/-- The queue is ordered by non-increasing priority. -/
def SortedQ (q : List QItem) : Prop :=
  List.Pairwise (fun a b => b.priority ≤ a.priority) q

/-! ## Transactional executor (src/src/db/query-builder.ts)

`executeParameterizedQuery` is asynchronous driver-calling code; it is
embedded as a function of a fault oracle that fixes, for each step of the
call (pool connect, JWT decode, and the five queries BEGIN / SET role /
SET claims / statement / COMMIT), whether the step succeeds or throws with
a given message.  The embedding returns the `{success, error}` result
together with the ordered trace of driver calls issued on the connection,
so the rollback/release discipline of the source's catch/finally blocks
is a provable property of the trace. -/

/-- Driver calls observable on a pooled connection. -/
inductive DbCall where
  | connect
  | query (sql : String)
  | release
  deriving DecidableEq, Repr

/-- Fault model for one execution: `none` means the step succeeds, `some
msg` means it throws with message `msg`.  `claims` is the JSON of the
decoded JWT claims on decode success.  A failure of the ROLLBACK issued in
the catch block is swallowed by the source (logged only, lines 104-110), so
`rollbackErr` influences neither the result nor the rollback/release trace
— the embedding therefore never consults it. -/
structure PgOracle where
  connectErr : Option String
  decodeErr : Option String
  beginErr : Option String
  setRoleErr : Option String
  setClaimsErr : Option String
  stmtErr : Option String
  commitErr : Option String
  rollbackErr : Option String
  claims : String
  deriving DecidableEq, Repr

/-- Result record `{success, data?, error?}` with the data rows not
modelled. -/
structure ExecResult where
  success : Bool
  error : Option String
  deriving DecidableEq, Repr

/-- Embedding of the claims escaping (query-builder.ts lines 89-91):
`JSON.stringify(claims).replace(/\\/g, "\\\\").replace(/'/g, "''")` —
double every backslash, then double every single quote, in that order. -/
def escapeClaims (s : String) : String :=
  let bs : Char := '\\'
  let q : Char := Char.ofNat 39
  let pass1 := (s.data.map (fun c => if c = bs then [bs, bs] else [c])).flatten
  let pass2 := (pass1.map (fun c => if c = q then [q, q] else [c])).flatten
  String.mk pass2

/-- The `SET LOCAL role` statement text (query-builder.ts line 85). -/
def setRoleSql : String := "SET LOCAL role = \x27authenticated\x27"

/-- The `SET LOCAL request.jwt.claims` statement text (query-builder.ts
line 92), with the escaped claims JSON spliced between single quotes. -/
def setClaimsSql (claims : String) : String :=
  "SET LOCAL request.jwt.claims = \x27" ++ escapeClaims claims ++ "\x27"

/-- Run a sequence of driver queries until the first one that throws:
returns the error of the failing query (if any) and the trace of queries
issued, which includes the failing call itself. -/
def runSteps : List (String × Option String) → Option String × List DbCall
  | [] => (none, [])
  | (q, e) :: rest =>
    match e with
    | some m => (some m, [DbCall.query q])
    | none =>
        let r := runSteps rest
        (r.1, DbCall.query q :: r.2)

/-- The body of the `try` block of `executeParameterizedQuery`
(query-builder.ts lines 79-102) after the connection is acquired: decode
the JWT (throws before any query on a malformed token), then issue BEGIN,
SET role, SET claims, the statement, COMMIT in order, stopping at the
first failure. -/
def tryBody (o : PgOracle) (sql : String) : Option String × List DbCall :=
  match o.decodeErr with
  | some m => (some m, [])
  | none =>
      runSteps
        [("BEGIN", o.beginErr),
         (setRoleSql, o.setRoleErr),
         (setClaimsSql o.claims, o.setClaimsErr),
         (sql, o.stmtErr),
         ("COMMIT", o.commitErr)]

/-- Embedding of `executeParameterizedQuery` (query-builder.ts lines
70-124) over the fault oracle.  If the pool connect throws, the catch runs
with `client` still null (no rollback) and the finally releases nothing.
Otherwise the try body runs; on success the result is `{success: true}`,
on failure the catch issues ROLLBACK on the connection (its own failure
swallowed) and the result is `{success: false, error}`; in both cases the
finally releases the connection last. -/
def executeParameterizedQuery (o : PgOracle) (sql : String) :
    ExecResult × List DbCall :=
  match o.connectErr with
  | some m => (⟨false, some m⟩, [DbCall.connect])
  | none =>
      let r := tryBody o sql
      match r.1 with
      | none => (⟨true, none⟩, DbCall.connect :: r.2 ++ [DbCall.release])
      | some m =>
          (⟨false, some m⟩,
           DbCall.connect :: r.2 ++ [DbCall.query "ROLLBACK", DbCall.release])

/-- Some step after connection acquisition fails. -/
def failsAfterConnect (o : PgOracle) : Prop :=
  o.decodeErr ≠ none ∨ o.beginErr ≠ none ∨ o.setRoleErr ≠ none ∨
  o.setClaimsErr ≠ none ∨ o.stmtErr ≠ none ∨ o.commitErr ≠ none

/-! ## Rate limiter skip predicate (src/unnamed/part_005, rate-limiter
middleware) -/

/-- Embedding of `skipRateLimit` (part_005 lines 490-501): the
development-mode bypass (`NODE_ENV === "development"` and
`SKIP_RATE_LIMIT === "true"`), then the two literal path comparisons — the
source compares `req.path` with `===` against the string
`"/.well-known/*"`, it does not prefix-match. -/
def skipRateLimit (nodeEnvDevelopment skipFlagSet : Bool) (path : String) : Bool :=
  if nodeEnvDevelopment && skipFlagSet then true
  else if path = "/health" || path = "/.well-known/*" then true
  else false

end AtomicCrm

namespace AtomicCrm

/-! ## Theorems -/

/-- Helper: the accumulator-passing fold of `buildWhereClause` agrees with the
specification-level recursion, for any initial accumulators. -/
theorem buildWhereClause_foldl_eq (conditions : List (String × Option String))
    (startIndex : Nat) (parts : List String) (params : List String) :
    conditions.foldl
      (fun (acc : List String × List String) (kv : String × Option String) =>
        if isValidColumn kv.1 then
          match kv.2 with
          | none => (acc.1 ++ [kv.1 ++ " IS NULL"], acc.2)
          | some v =>
              (acc.1 ++ [kv.1 ++ " = $" ++ toString (startIndex + acc.2.length)],
               acc.2 ++ [v])
        else acc) (parts, params) =
    (parts ++ (wherePartsSpec conditions (startIndex + params.length)).1,
     params ++ (wherePartsSpec conditions (startIndex + params.length)).2) := by
  induction conditions generalizing parts params with
  | nil => simp [wherePartsSpec]
  | cons kv rest ih =>
    obtain ⟨k, v⟩ := kv
    by_cases hk : isValidColumn k
    · cases v with
      | none =>
        simp only [List.foldl_cons, hk, if_true]
        rw [ih]
        simp [wherePartsSpec, hk]
      | some x =>
        simp only [List.foldl_cons, hk, if_true]
        rw [ih]
        simp [wherePartsSpec, hk, List.length_append, Nat.add_assoc]
    · simp only [List.foldl_cons, hk, if_false]
      rw [ih]
      simp [wherePartsSpec, hk]

/-- C7: `buildWhereClause` emits `col IS NULL` for null-valued valid keys
without consuming a placeholder and `col = $n` for non-null valid keys with
`n` numbered consecutively from the start index counting only non-null
values (the specification-level recursion `wherePartsSpec`); in particular
`buildWhereClause {status: "x", deleted_at: null} 1` is
`"status = $1 AND deleted_at IS NULL"` with params `["x"]`. -/
theorem buildWhereClause_correct :
    (∀ (conditions : List (String × Option String)) (startIndex : Nat) (operator : String),
      buildWhereClause conditions startIndex operator =
        (String.intercalate (" " ++ operator ++ " ")
          (wherePartsSpec conditions startIndex).1,
         (wherePartsSpec conditions startIndex).2)) ∧
    buildWhereClause [("status", some "x"), ("deleted_at", none)] 1 "AND" =
      ("status = $1 AND deleted_at IS NULL", ["x"]) := by
  constructor
  · intro conditions startIndex operator
    simp only [buildWhereClause]
    rw [buildWhereClause_foldl_eq]
    simp
  · decide

/-- C9: `buildInsertStatement` performs no validation of its table argument:
for every string `t` the returned SQL embeds `t` verbatim between
`INSERT INTO ` and the column list, and only the data keys are filtered
through `isValidColumn`.  Instantiated at a table name that carries an
injection payload and fails `isValidTable`, showing that safety rests on the
caller checking `isValidTable` first. -/
theorem buildInsertStatement_table_verbatim :
    (∀ (t : String) (data : List (String × String)),
      (buildInsertStatement t data).1 =
        "INSERT INTO " ++ t ++ " (" ++
          String.intercalate ", "
            ((data.filter (fun kv => isValidColumn kv.1)).map (fun kv => kv.1)) ++
        ") VALUES (" ++
          String.intercalate ", "
            ((List.range (data.filter (fun kv => isValidColumn kv.1)).length).map
              (fun i => "$" ++ toString (i + 1))) ++ ")") ∧
    isValidTable "x; DROP TABLE contacts; --" = false ∧
    (buildInsertStatement "x; DROP TABLE contacts; --" [("name", "v")]).1 =
      "INSERT INTO x; DROP TABLE contacts; -- (name) VALUES ($1)" := by
  refine ⟨fun t data => rfl, by decide, by decide⟩

/-- C6: with fewer than 5 waiting connections and no pool-size overflow,
`checkPoolHealth` classifies utilization 70 as degraded, 69 as healthy, 90 as
critical and 89 as degraded (both thresholds inclusive); and whenever
`totalCount > maxConnections` the status is critical with the possible-leak
message, regardless of the other metrics. -/
theorem checkPoolHealth_boundaries :
    (∀ stats : PoolStats,
      stats.waitingCount < 5 → stats.totalCount ≤ stats.maxConnections →
        ((stats.utilizationPercent = 70 →
            (checkPoolHealth stats).status = HealthLevel.degraded) ∧
         (stats.utilizationPercent = 69 →
            (checkPoolHealth stats).status = HealthLevel.healthy) ∧
         (stats.utilizationPercent = 90 →
            (checkPoolHealth stats).status = HealthLevel.critical) ∧
         (stats.utilizationPercent = 89 →
            (checkPoolHealth stats).status = HealthLevel.degraded))) ∧
    (∀ stats : PoolStats,
      stats.maxConnections < stats.totalCount →
        (checkPoolHealth stats).status = HealthLevel.critical ∧
        (checkPoolHealth stats).message =
          "Pool size exceeds configured maximum - possible leak") := by
  constructor
  · intro stats hw ht
    have hw5 : ¬ THRESHOLDS_waiting_degraded ≤ stats.waitingCount := by
      unfold THRESHOLDS_waiting_degraded; omega
    have hw20 : ¬ THRESHOLDS_waiting_critical ≤ stats.waitingCount := by
      unfold THRESHOLDS_waiting_critical; omega
    have hleak : ¬ stats.maxConnections < stats.totalCount := by omega
    refine ⟨fun hu => ?_, fun hu => ?_, fun hu => ?_, fun hu => ?_⟩ <;>
      simp [checkPoolHealth, checkLeak, checkWaiting, checkUtilization,
            hu, hw5, hw20, hleak, THRESHOLDS_utilization_critical,
            THRESHOLDS_utilization_degraded]
  · intro stats hleak
    unfold checkPoolHealth checkLeak
    rw [if_pos hleak]
    exact ⟨rfl, rfl⟩

/-- Helper: a keyword match requires its first word to sit at the head of
the remaining text. -/
theorem matchSeq_head {w : List Char} {ws : List (List Char)} {s r : List Char}
    (h : matchSeq (w :: ws) s = some r) : w.isPrefixOf s = true := by
  by_cases hp : w.isPrefixOf s = true
  · exact hp
  · exfalso
    have hp' : w.isPrefixOf s = false := by
      cases hb : w.isPrefixOf s
      · rfl
      · exact absurd hb hp
    cases ws with
    | nil => simp [matchSeq, hp'] at h
    | cons w2 ws2 => simp [matchSeq, hp'] at h

/-- Helper: the head of a matched word belongs to the text. -/
theorem head_mem_of_isPrefixOf {c : Char} {w s : List Char}
    (h : (c :: w).isPrefixOf s = true) : c ∈ s := by
  cases s with
  | nil => simp [List.isPrefixOf] at h
  | cons y ys =>
    simp only [List.isPrefixOf, Bool.and_eq_true, beq_iff_eq] at h
    rw [h.1]
    exact List.mem_cons_self y ys

/-- Helper: every forbidden keyword begins with a word character. -/
def kwHeadOk (kw : String) : Bool :=
  match keywordWords kw with
  | (c :: _) :: _ => isWordChar c
  | _ => false

/-- Helper: the forbidden-keyword list passes the head-character check. -/
theorem forbidden_kwHeadOk : FORBIDDEN_KEYWORDS.all kwHeadOk = true := by decide

/-- Helper: a token occurrence of a forbidden keyword puts a word character
into the text. -/
theorem occurs_has_wordChar (text : List Char) (kw : String)
    (hmem : kw ∈ FORBIDDEN_KEYWORDS) (h : occursAsToken text kw = true) :
    ∃ c ∈ text, isWordChar c = true := by
  rw [occursAsToken, List.any_eq_true] at h
  obtain ⟨i, _, ht⟩ := h
  rw [tokenAt, Bool.and_eq_true] at ht
  have ht2 := ht.2
  have hhead := List.all_eq_true.mp forbidden_kwHeadOk kw hmem
  rw [kwHeadOk] at hhead
  cases hk : keywordWords kw with
  | nil => rw [hk] at hhead; simp at hhead
  | cons w ws =>
    cases w with
    | nil => rw [hk] at hhead; simp at hhead
    | cons c w' =>
      rw [hk] at hhead ht2
      match hm : matchSeq ((c :: w') :: ws) (text.drop i) with
      | none => rw [hm] at ht2; simp at ht2
      | some r =>
        have hpre := matchSeq_head hm
        exact ⟨c, List.mem_of_mem_drop (head_mem_of_isPrefixOf hpre), hhead⟩

/-- Helper: upper-casing maps whitespace to itself and word characters are
never whitespace, so a word character in the upper-cased text comes from a
non-whitespace character of the original. -/
theorem exists_nonWs_of_wordChar_mem {l : List Char} {c : Char}
    (hc : c ∈ upperChars l) (hw : isWordChar c = true) :
    ∃ c0 ∈ l, isWsChar c0 = false := by
  rw [upperChars] at hc
  obtain ⟨c0, hc0, heq⟩ := List.mem_map.mp hc
  refine ⟨c0, hc0, ?_⟩
  cases hws : isWsChar c0 with
  | false => rfl
  | true =>
    exfalso
    simp only [isWsChar, Bool.or_eq_true, decide_eq_true_eq] at hws
    subst heq
    rcases hws with ((((h | h) | h) | h) | h) | h <;> (try subst h) <;>
      exact absurd hw (by decide)

/-- Helper: an element surviving the predicate survives `dropWhile`. -/
theorem mem_dropWhile_of_mem {α : Type} {p : α → Bool} {a : α} :
    ∀ {l : List α}, a ∈ l → p a = false → a ∈ l.dropWhile p := by
  intro l
  induction l with
  | nil => intro h _; cases h
  | cons x xs ih =>
    intro hmem hpa
    cases hpx : p x with
    | false =>
      rw [List.dropWhile_cons, hpx]
      simpa using hmem
    | true =>
      rw [List.dropWhile_cons, hpx]
      simp only [if_true]
      rcases List.mem_cons.mp hmem with h | h
      · subst h; rw [hpa] at hpx; cases hpx
      · exact ih h hpa

/-- Helper: a string containing a non-whitespace character does not trim to
the empty string. -/
theorem jsTrim_ne_nil {l : List Char} {c : Char} (hc : c ∈ l)
    (hw : isWsChar c = false) : jsTrim l ≠ [] := by
  have h1 : c ∈ l.dropWhile isWsChar := mem_dropWhile_of_mem hc hw
  have h2 : c ∈ (l.dropWhile isWsChar).reverse := List.mem_reverse.mpr h1
  have h3 : c ∈ (l.dropWhile isWsChar).reverse.dropWhile isWsChar :=
    mem_dropWhile_of_mem h2 hw
  exact List.ne_nil_of_mem (by rw [jsTrim]; exact List.mem_reverse.mpr h3)

/-- C2 as amended: for every string whose length does not exceed the
10000-character limit and which contains some forbidden keyword as a
case-insensitive standalone word-boundary token, `validateSqlQuery` returns
invalid with an error message naming a forbidden keyword that occurs as
such a token — namely the first matching keyword in the fixed list order. -/
theorem validateSqlQuery_forbidden_detected (sql kw : String)
    (hlen : sql.data.length ≤ MAX_QUERY_LENGTH)
    (hmem : kw ∈ FORBIDDEN_KEYWORDS)
    (hocc : occursAsToken (upperChars sql.data) kw = true) :
    ∃ kw2 ∈ FORBIDDEN_KEYWORDS,
      occursAsToken (upperChars sql.data) kw2 = true ∧
      validateSqlQuery sql =
        ⟨false, some ("Query contains forbidden keyword: " ++ kw2)⟩ := by
  have hfind : (List.find? (fun k => occursAsToken (upperChars sql.data) k)
      FORBIDDEN_KEYWORDS).isSome = true :=
    List.find?_isSome.mpr ⟨kw, hmem, hocc⟩
  obtain ⟨kw2, hk2⟩ := Option.isSome_iff_exists.mp hfind
  have hk2p : occursAsToken (upperChars sql.data) kw2 = true := List.find?_some hk2
  have hk2m : kw2 ∈ FORBIDDEN_KEYWORDS := List.mem_of_find?_eq_some hk2
  obtain ⟨c, hcmem, hcw⟩ := occurs_has_wordChar _ kw2 hk2m hk2p
  obtain ⟨c0, hc0, hc0w⟩ := exists_nonWs_of_wordChar_mem hcmem hcw
  have htrim := jsTrim_ne_nil hc0 hc0w
  have hcf : containsForbiddenKeywords sql = some kw2 := hk2
  refine ⟨kw2, hk2m, hk2p, ?_⟩
  rw [validateSqlQuery, if_neg (fun h => htrim (List.length_eq_zero.mp h)),
    if_neg (Nat.not_lt.mpr hlen), hcf]

/-- Witness for the amended forbidden-keyword theorem at a short query
containing DROP as a standalone token. -/
theorem validateSqlQuery_forbidden_detected_witness :
    ∃ kw2 ∈ FORBIDDEN_KEYWORDS,
      occursAsToken (upperChars "DROP TABLE contacts".data) kw2 = true ∧
      validateSqlQuery "DROP TABLE contacts" =
        ⟨false, some ("Query contains forbidden keyword: " ++ kw2)⟩ :=
  validateSqlQuery_forbidden_detected "DROP TABLE contacts" "DROP"
    (by decide) (by decide) (by decide)

/-- A query longer than the 10000-character limit that contains DROP as a
standalone token. -/
def overlongQuery : String :=
  String.mk ('D' :: 'R' :: 'O' :: 'P' :: ' ' :: List.replicate 10000 'x')

/-- Substring occurrence test used to state that an error message does not
name a keyword. -/
def containsSub (pat s : List Char) : Bool :=
  (List.range (s.length + 1)).any (fun i => pat.isPrefixOf (s.drop i))

/-- C2 counterexample: `overlongQuery` contains the forbidden keyword DROP
as a standalone word-boundary token, yet `validateSqlQuery` rejects it with
the maximum-length error — a message that does not name the keyword —
because the length check runs before the keyword check. -/
theorem validateSqlQuery_keyword_claim_cex :
    "DROP" ∈ FORBIDDEN_KEYWORDS ∧
    occursAsToken (upperChars overlongQuery.data) "DROP" = true ∧
    validateSqlQuery overlongQuery =
      ⟨false, some "Query exceeds maximum length of 10000 characters"⟩ ∧
    containsSub "DROP".data
      "Query exceeds maximum length of 10000 characters".data = false := by
  have hdata : overlongQuery.data =
      'D' :: 'R' :: 'O' :: 'P' :: ' ' :: List.replicate 10000 'x' := rfl
  have hmemD : 'D' ∈ overlongQuery.data := by
    rw [hdata]; exact List.mem_cons_self _ _
  have htrim : jsTrim overlongQuery.data ≠ [] :=
    jsTrim_ne_nil hmemD (by decide)
  have hlen : overlongQuery.data.length = 10005 := by
    rw [hdata, List.length_cons, List.length_cons, List.length_cons,
      List.length_cons, List.length_cons, List.length_replicate]
  refine ⟨by decide, ?_, ?_, by decide⟩
  · rw [occursAsToken, List.any_eq_true]
    refine ⟨0, List.mem_range.mpr (by omega), ?_⟩
    rw [hdata]
    decide
  · rw [validateSqlQuery, if_neg (fun h => htrim (List.length_eq_zero.mp h)),
      if_pos (by rw [hlen]; norm_num [MAX_QUERY_LENGTH])]
    rfl

/-- C10: `validateSqlQuery` does not consult the table allow-list — it
accepts `SELECT * FROM pg_shadow`, which touches only a table outside the
allow-list; the allow-list is enforced only by the separate
`validateTablesInQuery`, which flags `pg_shadow`. -/
theorem validateSqlQuery_no_allowlist :
    validateSqlQuery "SELECT * FROM pg_shadow" = ⟨true, none⟩ ∧
    validateTablesInQuery "SELECT * FROM pg_shadow" ALLOWED_TABLES =
      (false, ["pg_shadow"]) := by
  constructor
  · decide
  · decide

/-- Helper: insertion adds exactly one element. -/
theorem length_insertByPriority (r : QItem) (q : List QItem) :
    (insertByPriority r q).length = q.length + 1 := by
  induction q with
  | nil => rfl
  | cons x xs ih =>
    by_cases hx : x.priority < r.priority <;> simp [insertByPriority, hx, ih]

/-- Helper: membership in the insertion result. -/
theorem mem_insertByPriority (y r : QItem) (q : List QItem) :
    y ∈ insertByPriority r q ↔ y = r ∨ y ∈ q := by
  induction q with
  | nil => simp [insertByPriority]
  | cons x xs ih =>
    by_cases hx : x.priority < r.priority
    · simp [insertByPriority, hx]
    · simp [insertByPriority, hx, ih]
      tauto

/-- Helper: insertion preserves the non-increasing priority ordering. -/
theorem sortedQ_insertByPriority (r : QItem) (q : List QItem) (hq : SortedQ q) :
    SortedQ (insertByPriority r q) := by
  induction q with
  | nil => simp [insertByPriority, SortedQ]
  | cons x xs ih =>
    rw [SortedQ, List.pairwise_cons] at hq
    by_cases hx : x.priority < r.priority
    · rw [SortedQ]
      simp only [insertByPriority, hx, if_true]
      rw [List.pairwise_cons]
      refine ⟨?_, ?_⟩
      · intro y hy
        rcases List.mem_cons.1 hy with h | h
        · subst h; exact Nat.le_of_lt hx
        · exact Nat.le_trans (hq.1 y h) (Nat.le_of_lt hx)
      · rw [List.pairwise_cons]
        exact hq
    · rw [SortedQ]
      simp only [insertByPriority, hx, if_false]
      rw [List.pairwise_cons]
      refine ⟨?_, ih hq.2⟩
      intro y hy
      rcases (mem_insertByPriority y r xs).1 hy with h | h
      · subst h; exact Nat.not_lt.1 hx
      · exact hq.1 y h

/-- Helper: one step keeps the active counter within `maxConcurrent`. -/
theorem stepQ_active_le (cfg : QConfig) (s : QState) (e : QEvent)
    (h : s.active ≤ cfg.maxConcurrent) :
    (stepQ cfg s e).active ≤ cfg.maxConcurrent := by
  cases e with
  | enqueue p =>
    simp only [stepQ, enqueueQ]
    split
    · next s' heq =>
      split at heq
      · exact absurd heq (by simp)
      · cases heq; exact h
    · exact h
  | dispatch =>
    simp only [stepQ]
    split
    · next hlt =>
      split
      · exact h
      · exact hlt
    · exact h
  | complete => exact Nat.le_trans (Nat.sub_le _ _) h
  | retryInsert r => exact h

/-- Helper: a non-retry step keeps the queue within `maxQueueSize`. -/
theorem stepQ_len_le (cfg : QConfig) (s : QState) (e : QEvent)
    (hr : e.isRetry = false) (h : s.queue.length ≤ cfg.maxQueueSize) :
    (stepQ cfg s e).queue.length ≤ cfg.maxQueueSize := by
  cases e with
  | enqueue p =>
    simp only [stepQ, enqueueQ]
    split
    · next s' heq =>
      split at heq
      · exact absurd heq (by simp)
      · next hfull =>
        cases heq
        simp only [length_insertByPriority]
        omega
    · exact h
  | dispatch =>
    simp only [stepQ]
    split
    · split
      · exact h
      · next heq => rw [heq] at h; simp at h ⊢; omega
    · exact h
  | complete => exact h
  | retryInsert r => simp [QEvent.isRetry] at hr

/-- Helper: every step preserves the priority ordering of the queue. -/
theorem stepQ_sorted (cfg : QConfig) (s : QState) (e : QEvent)
    (h : SortedQ s.queue) : SortedQ (stepQ cfg s e).queue := by
  cases e with
  | enqueue p =>
    simp only [stepQ, enqueueQ]
    split
    · next s' heq =>
      split at heq
      · exact absurd heq (by simp)
      · cases heq
        exact sortedQ_insertByPriority _ _ h
    · exact h
  | dispatch =>
    simp only [stepQ]
    split
    · split
      · exact h
      · next heq =>
        rw [heq] at h
        exact (List.pairwise_cons.1 h).2
    · exact h
  | complete => exact h
  | retryInsert r => exact sortedQ_insertByPriority _ _ h

/-- Helper: the drained state of the `processNext` loop: it starts
`min (maxConcurrent - active) queue.length` requests, taking them from the
head of the queue. -/
theorem processNext_drain (cfg : QConfig) (s : QState) :
    (processNext cfg s).active =
      s.active + min (cfg.maxConcurrent - s.active) s.queue.length ∧
    (processNext cfg s).queue.length =
      s.queue.length - (cfg.maxConcurrent - s.active) := by
  suffices h : ∀ (q : List QItem) (a c : Nat),
      (processNextGo cfg a c q).active = a + min (cfg.maxConcurrent - a) q.length ∧
      (processNextGo cfg a c q).queue.length = q.length - (cfg.maxConcurrent - a) by
    exact h s.queue s.active s.counter
  intro q
  induction q with
  | nil => intro a c; simp [processNextGo]
  | cons x xs ih =>
    intro a c
    by_cases hlt : a < cfg.maxConcurrent
    · simp only [processNextGo, hlt, if_true]
      have h := ih (a + 1) c
      refine ⟨?_, ?_⟩
      · rw [h.1]; simp only [List.length_cons]; omega
      · rw [h.2]; simp only [List.length_cons]; omega
    · simp only [processNextGo, hlt, if_false, List.length_cons]
      refine ⟨by omega, by omega⟩

/-- C4: the active-request counter of the admission queue never exceeds
`maxConcurrent` on any event trace (the dispatch step only fires under the
`activeRequests < maxConcurrent` guard and completion always decrements);
and draining a queue of `maxConcurrent + k` pending requests from an idle
state activates exactly `maxConcurrent` of them, leaving `k` waiting. -/
theorem requestQueue_active_bounded :
    (∀ (cfg : QConfig) (es : List QEvent),
      (runQ cfg es).active ≤ cfg.maxConcurrent) ∧
    (∀ (cfg : QConfig) (s : QState) (k : Nat),
      s.active = 0 → s.queue.length = cfg.maxConcurrent + k →
        (processNext cfg s).active = cfg.maxConcurrent ∧
        (processNext cfg s).queue.length = k) := by
  constructor
  · intro cfg es
    suffices h : ∀ (l : List QEvent) (s : QState), s.active ≤ cfg.maxConcurrent →
        (l.foldl (stepQ cfg) s).active ≤ cfg.maxConcurrent by
      exact h es initQ (Nat.zero_le _)
    intro l
    induction l with
    | nil => exact fun s hs => hs
    | cons e rest ih =>
      intro s hs
      exact ih _ (stepQ_active_le cfg s e hs)
  · intro cfg s k h0 hlen
    obtain ⟨h1, h2⟩ := processNext_drain cfg s
    exact ⟨by omega, by omega⟩

/-- Witness for the active-bound theorem: draining three pending requests
with `maxConcurrent = 2` from an idle state activates exactly two and
leaves one waiting. -/
theorem requestQueue_active_bounded_witness :
    (processNext ⟨2, 10, 3⟩ ⟨[⟨1, 0, 0⟩, ⟨2, 0, 0⟩, ⟨3, 0, 0⟩], 0, 3⟩).active = 2 ∧
    (processNext ⟨2, 10, 3⟩ ⟨[⟨1, 0, 0⟩, ⟨2, 0, 0⟩, ⟨3, 0, 0⟩], 0, 3⟩).queue.length = 1 :=
  requestQueue_active_bounded.2 ⟨2, 10, 3⟩ ⟨[⟨1, 0, 0⟩, ⟨2, 0, 0⟩, ⟨3, 0, 0⟩], 0, 3⟩ 1
    rfl rfl

/-- C5: on every event trace the pending queue stays sorted by
non-increasing priority; `insertByPriority` places the new entry exactly
after the longest prefix of entries whose priority is not strictly lower
(hence after all entries of equal priority — FIFO within a band); and the
dispatch step only ever removes the head of the queue. -/
theorem requestQueue_priority_order :
    (∀ (cfg : QConfig) (es : List QEvent), SortedQ (runQ cfg es).queue) ∧
    (∀ (r : QItem) (q : List QItem),
      insertByPriority r q =
        q.takeWhile (fun x => !decide (x.priority < r.priority)) ++
          r :: q.dropWhile (fun x => !decide (x.priority < r.priority))) ∧
    (∀ (cfg : QConfig) (s : QState),
      (stepQ cfg s QEvent.dispatch).queue = s.queue.tail ∨
        stepQ cfg s QEvent.dispatch = s) := by
  refine ⟨?_, ?_, ?_⟩
  · intro cfg es
    suffices h : ∀ (l : List QEvent) (s : QState), SortedQ s.queue →
        SortedQ (l.foldl (stepQ cfg) s).queue by
      exact h es initQ (by simp [initQ, SortedQ])
    intro l
    induction l with
    | nil => exact fun s hs => hs
    | cons e rest ih =>
      intro s hs
      exact ih _ (stepQ_sorted cfg s e hs)
  · intro r q
    induction q with
    | nil => rfl
    | cons x xs ih =>
      by_cases hx : x.priority < r.priority <;>
        simp [insertByPriority, hx, List.takeWhile_cons, List.dropWhile_cons, ih]
  · intro cfg s
    simp only [stepQ]
    split
    · match heq : s.queue with
      | [] => right; simp [heq]
      | x :: xs => left; simp [heq]
    · right; rfl

/-- The literal claim that the pending queue never exceeds `maxQueueSize` on
every insertion path, stated over all event traces of the model. -/
def queueLenClaim (cfg : QConfig) : Prop :=
  ∀ es : List QEvent, (runQ cfg es).queue.length ≤ cfg.maxQueueSize

/-- The trace refuting the queue-size claim: with `maxQueueSize = 1` and
`maxConcurrent = 1`, enqueue, dispatch, enqueue again (queue now at
capacity), let the dispatched task fail, and re-insert it via the retry
path — the retry insertion performs no capacity check, so the queue reaches
length 2. -/
def queueOverflowTrace : List QEvent :=
  [QEvent.enqueue 0, QEvent.dispatch, QEvent.enqueue 0, QEvent.complete,
   QEvent.retryInsert ⟨1, 0, 1⟩]

/-- C3 counterexample: the claim that the queue length never exceeds
`maxQueueSize` fails on the retry re-insertion path, exhibited by
`queueOverflowTrace` on a queue with `maxQueueSize = 1`. -/
theorem requestQueue_len_claim_false :
    ¬ queueLenClaim ⟨1, 1, 3⟩ :=
  fun h => absurd (h queueOverflowTrace) (by decide)

/-- C3 as amended: on traces that never take the retry re-insertion path the
queue length never exceeds `maxQueueSize`, and `enqueue` called while the
queue length is already at or above `maxQueueSize` fails synchronously
without queuing anything. -/
theorem requestQueue_len_bounded :
    (∀ (cfg : QConfig) (es : List QEvent), (∀ e ∈ es, e.isRetry = false) →
      (runQ cfg es).queue.length ≤ cfg.maxQueueSize) ∧
    (∀ (cfg : QConfig) (s : QState) (p : Nat),
      cfg.maxQueueSize ≤ s.queue.length → enqueueQ cfg s p = none) := by
  constructor
  · intro cfg es hes
    suffices h : ∀ (l : List QEvent), (∀ e ∈ l, e.isRetry = false) →
        ∀ (s : QState), s.queue.length ≤ cfg.maxQueueSize →
        (l.foldl (stepQ cfg) s).queue.length ≤ cfg.maxQueueSize by
      exact h es hes initQ (by simp [initQ])
    intro l
    induction l with
    | nil => exact fun _ s hs => hs
    | cons e rest ih =>
      intro hl s hs
      exact ih (fun e' he' => hl e' (List.mem_cons_of_mem e he'))
        _ (stepQ_len_le cfg s e (hl e (List.mem_cons_self e rest)) hs)
  · intro cfg s p hfull
    simp [enqueueQ, hfull]

/-- Witness for the amended queue-size theorem: a retry-free trace on a
capacity-1 queue stays within bound, and enqueueing into a full queue fails. -/
theorem requestQueue_len_bounded_witness :
    (runQ ⟨1, 1, 3⟩ [QEvent.enqueue 0, QEvent.enqueue 2]).queue.length ≤ 1 ∧
    enqueueQ ⟨1, 1, 3⟩ ⟨[⟨1, 0, 0⟩], 0, 1⟩ 0 = none :=
  ⟨requestQueue_len_bounded.1 ⟨1, 1, 3⟩ [QEvent.enqueue 0, QEvent.enqueue 2]
      (by decide),
   requestQueue_len_bounded.2 ⟨1, 1, 3⟩ ⟨[⟨1, 0, 0⟩], 0, 1⟩ 0 (by decide)⟩

/-- C1: whenever the pool connect succeeds, `executeParameterizedQuery`
releases the connection as the last driver call on every path; it succeeds
exactly when every step after connection acquisition succeeds; and on any
failure after acquisition (JWT decode, BEGIN, SET role, SET claims, the
statement, or COMMIT) it issues ROLLBACK as the second-to-last driver call
— immediately before the release — and returns a structured
`{success: false, error}` result. -/
theorem executeParameterizedQuery_rollback_release (o : PgOracle) (sql : String)
    (hc : o.connectErr = none) :
    (executeParameterizedQuery o sql).2.getLast? = some DbCall.release ∧
    ((executeParameterizedQuery o sql).1.success = true ↔ ¬ failsAfterConnect o) ∧
    (failsAfterConnect o →
      (executeParameterizedQuery o sql).1.success = false ∧
      (executeParameterizedQuery o sql).1.error ≠ none ∧
      (executeParameterizedQuery o sql).2.dropLast.getLast? =
        some (DbCall.query "ROLLBACK")) := by
  rcases o with ⟨c, d, b, r, s, q, m, rb, cl⟩
  simp only at hc
  subst hc
  rcases d with _ | md <;> rcases b with _ | mb <;> rcases r with _ | mr <;>
    rcases s with _ | ms <;> rcases q with _ | mq <;> rcases m with _ | mm <;>
    simp [executeParameterizedQuery, tryBody, runSteps, failsAfterConnect,
      List.getLast?, List.dropLast]

/-- Witness for the executor theorem: with only the statement itself
failing, the trace ends in ROLLBACK then release and the result is a
structured failure. -/
theorem executeParameterizedQuery_rollback_release_witness :
    (executeParameterizedQuery
        ⟨none, none, none, none, none, some "relation missing", none, none, "\x7b\x7d"⟩
        "SELECT 1").2.getLast? = some DbCall.release ∧
    ((executeParameterizedQuery
        ⟨none, none, none, none, none, some "relation missing", none, none, "\x7b\x7d"⟩
        "SELECT 1").1.success = true ↔
      ¬ failsAfterConnect
        ⟨none, none, none, none, none, some "relation missing", none, none, "\x7b\x7d"⟩) ∧
    (failsAfterConnect
        ⟨none, none, none, none, none, some "relation missing", none, none, "\x7b\x7d"⟩ →
      (executeParameterizedQuery
          ⟨none, none, none, none, none, some "relation missing", none, none, "\x7b\x7d"⟩
          "SELECT 1").1.success = false ∧
      (executeParameterizedQuery
          ⟨none, none, none, none, none, some "relation missing", none, none, "\x7b\x7d"⟩
          "SELECT 1").1.error ≠ none ∧
      (executeParameterizedQuery
          ⟨none, none, none, none, none, some "relation missing", none, none, "\x7b\x7d"⟩
          "SELECT 1").2.dropLast.getLast? = some (DbCall.query "ROLLBACK")) :=
  executeParameterizedQuery_rollback_release
    ⟨none, none, none, none, none, some "relation missing", none, none, "\x7b\x7d"⟩
    "SELECT 1" rfl

/-- C8: the rate-limiter skip predicate is a literal string comparison, so
a real well-known discovery path such as
`/.well-known/oauth-protected-resource` — which does begin with
`/.well-known/` — is NOT exempt outside development mode, while `/health`
and the literal path `/.well-known/*` are. -/
theorem skipRateLimit_wellKnown_not_exempt :
    ("/.well-known/".data).isPrefixOf
      "/.well-known/oauth-protected-resource".data = true ∧
    skipRateLimit false false "/.well-known/oauth-protected-resource" = false ∧
    skipRateLimit false false "/health" = true ∧
    skipRateLimit false false "/.well-known/*" = true := by
  decide

/-- Witness for the pool-health boundary theorem: a concrete stats record at
utilization 70 with no waiting connections classifies as degraded, and one
with `totalCount` above `maxConnections` is critical with the leak message. -/
theorem checkPoolHealth_boundaries_witness :
    (checkPoolHealth ⟨7, 3, 0, 7, 10, 70⟩).status = HealthLevel.degraded ∧
    (checkPoolHealth ⟨12, 3, 0, 9, 10, 20⟩).status = HealthLevel.critical ∧
    (checkPoolHealth ⟨12, 3, 0, 9, 10, 20⟩).message =
      "Pool size exceeds configured maximum - possible leak" := by
  refine ⟨(checkPoolHealth_boundaries.1 ⟨7, 3, 0, 7, 10, 70⟩ (by decide) (by decide)).1 rfl,
          (checkPoolHealth_boundaries.2 ⟨12, 3, 0, 9, 10, 20⟩ (by decide)).1,
          (checkPoolHealth_boundaries.2 ⟨12, 3, 0, 9, 10, 20⟩ (by decide)).2⟩

end AtomicCrm
